import Mathlib

/-!
Shallow embedding of the account-ledger service from `src/app/main.rs`.

The repository is a Rust/axum HTTP service whose core logic lives in two
PL/pgSQL functions created at startup (`process_transaction` and
`get_extrato`, defined as SQL string constants in `main.rs`) plus the input
validation performed by the two Rust handlers (`post_transacao` and the
`get_extrato` handler).  We model the database state explicitly and
translate each function row-by-row from the SQL, and each handler from the
Rust.
-/

namespace Rinha

/-- A row of the `accounts` table: `id`, `balance`, `account_limit`
(PostgreSQL INT columns, modelled as `Int`). -/
structure Account where
  id : Int
  balance : Int
  account_limit : Int
deriving DecidableEq

/-- A row of the `transactions` table: serial primary key `id`,
`account_id`, `amount`, `type` (CHAR), `description` (VARCHAR(10)),
`created_at` (server clock at insertion). -/
structure Transaction where
  id : Nat
  account_id : Int
  amount : Int
  type : Char
  description : String
  created_at : Nat
deriving DecidableEq

/-- The database state: the `accounts` table, the append-only
`transactions` table in insertion order, the next serial id for
`transactions`, and the server clock read by `NOW()`. -/
structure LedgerState where
  accounts : List Account
  transactions : List Transaction
  next_id : Nat
  clock : Nat
deriving DecidableEq

/-- Result of the SQL function `process_transaction`: either the JSON
object built by `json_build_object('saldo', ua.balance, 'limite',
ua.account_limit)`, or the error JSON literal returned when the
guarded UPDATE matched no row. -/
inductive PTResult where
  | ok (saldo : Int) (limite : Int)
  | errorJson
deriving DecidableEq

/-- The WHERE clause of the guarded UPDATE in `process_transaction`
(main.rs lines 164-169): `id = p_account_id AND (p_type = 'c' OR
(balance - p_amount) >= -account_limit)`, evaluated on one row of
`accounts`. -/
def rowGuard (p_account_id p_amount : Int) (p_type : Char) (a : Account) : Bool :=
  a.id == p_account_id &&
    (p_type == 'c' || decide (a.balance - p_amount ≥ -a.account_limit))

/-- The SET expression of the UPDATE (main.rs line 163):
`CASE WHEN p_type = 'c' THEN p_amount ELSE -p_amount END`. -/
def txDelta (p_type : Char) (p_amount : Int) : Int :=
  if p_type == 'c' then p_amount else -p_amount

/-- The row inserted into `transactions` by a successful
`process_transaction` call: serial id `next_id`, the call's arguments, and
`created_at` defaulted to the server clock. -/
def newTx (st : LedgerState) (p_account_id p_amount : Int) (p_type : Char)
    (p_description : String) : Transaction :=
  { id := st.next_id, account_id := p_account_id, amount := p_amount,
    type := p_type, description := p_description, created_at := st.clock }

/-- The SQL function `process_transaction` (main.rs lines 142-200).
The CTE performs a guarded `UPDATE ... RETURNING`; rows hit by the UPDATE
are exactly those satisfying `rowGuard`.  If no row is hit the function
returns `'{"error": 1}'::json`; otherwise the new balance is written, one
row is inserted into `transactions` (via the `inserted_transaction` CTE,
which only fires when `updated_account` is non-empty), and the response is
built from the RETURNING row. -/
def process_transaction (st : LedgerState) (p_account_id p_amount : Int)
    (p_type : Char) (p_description : String) : LedgerState × PTResult :=
  match st.accounts.filter (rowGuard p_account_id p_amount p_type) with
  | [] => (st, PTResult.errorJson)
  | a :: _ =>
    let d := txDelta p_type p_amount
    let st' : LedgerState :=
      { st with
        accounts := st.accounts.map (fun b =>
          if rowGuard p_account_id p_amount p_type b then
            { b with balance := b.balance + d } else b),
        transactions := st.transactions ++
          [newTx st p_account_id p_amount p_type p_description],
        next_id := st.next_id + 1 }
    (st', PTResult.ok (a.balance + d) a.account_limit)

/-- One element of the `ultimas_transacoes` array produced by
`get_extrato`: `amount AS valor, type AS tipo, description AS descricao,
created_at AS realizada_em`. -/
structure TxView where
  valor : Int
  tipo : Char
  descricao : String
  realizada_em : Nat
deriving DecidableEq

/-- The `saldo` object of the statement: `'total' balance, 'limite'
account_limit, 'data_extrato' NOW()`. -/
structure Saldo where
  total : Int
  limite : Int
  data_extrato : Nat
deriving DecidableEq

/-- The JSON object returned by `get_extrato` on success. -/
structure Extrato where
  saldo : Saldo
  ultimas_transacoes : List TxView
deriving DecidableEq

/-- Descending insertion by transaction id, used to model
`ORDER BY id DESC`. -/
def insertByIdDesc (t : Transaction) : List Transaction → List Transaction
  | [] => [t]
  | u :: us => if u.id ≤ t.id then t :: u :: us else u :: insertByIdDesc t us

/-- Sort a list of transaction rows by id descending (the `ORDER BY id
DESC` of the statement query; the table is a multiset, so the model must
order explicitly). -/
def sortByIdDesc : List Transaction → List Transaction
  | [] => []
  | t :: ts => insertByIdDesc t (sortByIdDesc ts)

/-- Map a transaction row to the view row selected by the statement
sub-query. -/
def txView (t : Transaction) : TxView :=
  { valor := t.amount, tipo := t.type, descricao := t.description,
    realizada_em := t.created_at }

/-- The SQL function `get_extrato` (main.rs lines 90-137).  It selects the
account row (returning NULL, modelled `none`, when absent), then aggregates
the 10 most recent transactions ordered by `id DESC`; `json_agg` yields
NULL on the empty set, and `COALESCE(last_transactions, '[]'::json)`
replaces that NULL by the empty array. -/
def get_extrato (st : LedgerState) (p_account_id : Int) : Option Extrato :=
  match st.accounts.filter (fun a => a.id == p_account_id) with
  | [] => none
  | a :: _ =>
    let rows := (sortByIdDesc
      (st.transactions.filter (fun t => t.account_id == p_account_id))).take 10
    let last_transactions : Option (List TxView) :=
      match rows with
      | [] => none
      | _ :: _ => some (rows.map txView)
    some { saldo := { total := a.balance, limite := a.account_limit,
                      data_extrato := st.clock },
           ultimas_transacoes := last_transactions.getD [] }

/-- The JSON payload of `POST /clientes/:id/transacoes` (main.rs lines
383-388): `valor` is a `u32` (modelled as a `Nat` below `2^32`), `tipo`
and `descricao` are strings. -/
structure TransactionPayload where
  valor : Nat
  tipo : String
  descricao : String
deriving DecidableEq

/-- Rust's `u32 as i32` cast applied to `payload.valor` at main.rs
line 491 (two's-complement wrap-around). -/
def u32_as_i32 (v : Nat) : Int :=
  if v < 2 ^ 31 then (v : Int) else (v : Int) - 2 ^ 32

/-- HTTP status of a handler response. -/
inductive HStatus where
  | ok
  | notFound
  | unprocessable
  | internalError
deriving DecidableEq

/-- Outcome of the POST handler: the status, the state after the call,
whether a query was issued to the store, and whether the handler panicked
(the `unwrap()` at main.rs line 503). -/
structure PostResult where
  status : HStatus
  state : LedgerState
  queried : Bool
  panicked : Bool
deriving DecidableEq

/-- The Rust handler `post_transacao` (main.rs lines 455-548): range
pre-check on the id, then description / tipo / valor validation, then the
single `SELECT process_transaction(...)` query; the error JSON maps to
422, the success JSON to 200. -/
def post_transacao (st : LedgerState) (id : Int)
    (payload : TransactionPayload) : PostResult :=
  if id < 1 || id > 5 then
    { status := HStatus.notFound, state := st, queried := false, panicked := false }
  else if payload.descricao.utf8ByteSize == 0 || payload.descricao.utf8ByteSize > 10 then
    { status := HStatus.unprocessable, state := st, queried := false, panicked := false }
  else if payload.tipo != "c" && payload.tipo != "d" then
    { status := HStatus.unprocessable, state := st, queried := false, panicked := false }
  else if payload.valor == 0 then
    { status := HStatus.unprocessable, state := st, queried := false, panicked := false }
  else
    match payload.tipo.data.head? with
    | none =>
      { status := HStatus.internalError, state := st, queried := false, panicked := true }
    | some c =>
      match process_transaction st id (u32_as_i32 payload.valor) c payload.descricao with
      | (st', PTResult.errorJson) =>
        { status := HStatus.unprocessable, state := st', queried := true, panicked := false }
      | (st', PTResult.ok _ _) =>
        { status := HStatus.ok, state := st', queried := true, panicked := false }

/-- Outcome of the GET handler: status, optional body, and whether a
query was issued to the store. -/
structure GetResult where
  status : HStatus
  body : Option Extrato
  queried : Bool
deriving DecidableEq

/-- The Rust handler `get_extrato` (main.rs lines 400-452), named
`get_extrato_handler` here to avoid clashing with the SQL function of the
same name: range pre-check on the id, then `SELECT get_extrato($1)`; a
NULL result maps to 404, any JSON body to 200. -/
def get_extrato_handler (st : LedgerState) (id : Int) : GetResult :=
  if id < 1 || id > 5 then
    { status := HStatus.notFound, body := none, queried := false }
  else
    match get_extrato st id with
    | none => { status := HStatus.notFound, body := none, queried := true }
    | some e => { status := HStatus.ok, body := some e, queried := true }

/-- One `apply` call of the spec's Transaction Processor contract, i.e.
one invocation of `process_transaction`. -/
structure ApplyReq where
  account_id : Int
  amount : Int
  kind : Char
  description : String
deriving DecidableEq

/-- Run a sequence of `apply` calls, collecting each call's result. -/
def applyRun (st : LedgerState) : List ApplyReq → LedgerState × List PTResult
  | [] => (st, [])
  | r :: rs =>
    let out := process_transaction st r.account_id r.amount r.kind r.description
    let rest := applyRun out.1 rs
    (rest.1, out.2 :: rest.2)

/-- Whether a `process_transaction` result is a success. -/
def PTResult.isOk : PTResult → Bool
  | PTResult.ok _ _ => true
  | PTResult.errorJson => false

/-- The spec's core invariant: every account's balance is at least the
negative of its credit limit. -/
def InvariantOK (st : LedgerState) : Prop :=
  ∀ a ∈ st.accounts, -a.account_limit ≤ a.balance

/-- Well-formedness of the transactions table: serial ids strictly
increase along insertion order and stay below `next_id`. -/
def IdsSorted (st : LedgerState) : Prop :=
  st.transactions.Pairwise (fun t u => t.id < u.id) ∧
    ∀ t ∈ st.transactions, t.id < st.next_id

/-- A one-account demo state: account 1 with balance 0 and limit 100
(the scenario state of the spec). -/
def demoState : LedgerState :=
  { accounts := [{ id := 1, balance := 0, account_limit := 100 }],
    transactions := [], next_id := 1, clock := 0 }

/-- A five-account seeded state matching the deploy-time account set
hardcoded in the handlers (ids 1 through 5). -/
def seedState : LedgerState :=
  { accounts :=
      [{ id := 1, balance := 0, account_limit := 100000 },
       { id := 2, balance := 0, account_limit := 80000 },
       { id := 3, balance := 0, account_limit := 1000000 },
       { id := 4, balance := 0, account_limit := 10000000 },
       { id := 5, balance := 0, account_limit := 500000 }],
    transactions := [], next_id := 1, clock := 0 }

/-- A well-formed payload used to exercise the POST handler. -/
def okPayload : TransactionPayload :=
  { valor := 10, tipo := "c", descricao := "teste" }

/-- The deploy-time seeding assumption the handlers hard-code: the store
holds accounts for exactly the ids 1 through 5. -/
def SeededIds (st : LedgerState) : Prop :=
  (∀ a ∈ st.accounts, 1 ≤ a.id ∧ a.id ≤ 5) ∧
    ∀ i ∈ ([1, 2, 3, 4, 5] : List Int), ∃ a ∈ st.accounts, a.id = i

/-- The spec scenario of twelve transactions T1..T12 posted in order to
account 1 (credits of 1..12). -/
def reqs12 : List ApplyReq :=
  [{ account_id := 1, amount := 1, kind := 'c', description := "t1" },
   { account_id := 1, amount := 2, kind := 'c', description := "t2" },
   { account_id := 1, amount := 3, kind := 'c', description := "t3" },
   { account_id := 1, amount := 4, kind := 'c', description := "t4" },
   { account_id := 1, amount := 5, kind := 'c', description := "t5" },
   { account_id := 1, amount := 6, kind := 'c', description := "t6" },
   { account_id := 1, amount := 7, kind := 'c', description := "t7" },
   { account_id := 1, amount := 8, kind := 'c', description := "t8" },
   { account_id := 1, amount := 9, kind := 'c', description := "t9" },
   { account_id := 1, amount := 10, kind := 'c', description := "t10" },
   { account_id := 1, amount := 11, kind := 'c', description := "t11" },
   { account_id := 1, amount := 12, kind := 'c', description := "t12" }]

/-- The contention scenario state of the spec: one account with balance 0
and credit limit `L`. -/
def contentionState (L : Int) : LedgerState :=
  { accounts := [{ id := 1, balance := 0, account_limit := L }],
    transactions := [], next_id := 1, clock := 0 }

/-- A debit request of amount `m` against account 1. -/
def debitReq (m : Int) (d : String) : ApplyReq :=
  { account_id := 1, amount := m, kind := 'd', description := d }

end Rinha

namespace Rinha

/-! ### Helper lemmas about the guarded UPDATE -/

theorem filter_and_eq (l : List Account) (p q : Account → Bool) :
    l.filter (fun b => p b && q b) = (l.filter p).filter q := by
  induction l with
  | nil => rfl
  | cons a t ih =>
    by_cases hp : p a <;> by_cases hq : q a <;>
      simp [List.filter_cons, hp, hq, ih]

theorem filter_rowGuard_of_unique (st : LedgerState) (aid amt : Int) (ty : Char)
    (a : Account) (ha : st.accounts.filter (fun b => b.id == aid) = [a]) :
    st.accounts.filter (rowGuard aid amt ty) =
      if ty == 'c' || decide (a.balance - amt ≥ -a.account_limit) then [a] else [] := by
  have h1 : st.accounts.filter (rowGuard aid amt ty) =
      (st.accounts.filter (fun b => b.id == aid)).filter
        (fun b => ty == 'c' || decide (b.balance - amt ≥ -b.account_limit)) := by
    rw [← filter_and_eq]
    rfl
  rw [h1, ha]
  by_cases h : (ty == 'c' || decide (a.balance - amt ≥ -a.account_limit)) = true <;>
    simp [List.filter_cons, h]

theorem process_transaction_of_unique (st : LedgerState) (aid amt : Int) (ty : Char)
    (d : String) (a : Account) (ha : st.accounts.filter (fun b => b.id == aid) = [a]) :
    process_transaction st aid amt ty d =
      if ty == 'c' || decide (a.balance - amt ≥ -a.account_limit) then
        ({ st with
            accounts := st.accounts.map (fun b =>
              if rowGuard aid amt ty b then
                { b with balance := b.balance + txDelta ty amt } else b),
            transactions := st.transactions ++
              [{ id := st.next_id, account_id := aid, amount := amt,
                 type := ty, description := d, created_at := st.clock }],
            next_id := st.next_id + 1 },
         PTResult.ok (a.balance + txDelta ty amt) a.account_limit)
      else (st, PTResult.errorJson) := by
  unfold process_transaction
  rw [filter_rowGuard_of_unique st aid amt ty a ha]
  by_cases h : (ty == 'c' || decide (a.balance - amt ≥ -a.account_limit)) = true
  · simp only [if_pos h]
    rfl
  · simp only [if_neg h]

/-! ### Claim theorems -/

/-- C2: every `process_transaction` call is atomic in its effects: either
the guarded UPDATE hits no row and the state is returned unchanged with
the error JSON (no balance mutation, no transaction record, no balance in
the response), or the call succeeds and both the balance mutation and
exactly one appended transaction record exist afterward. -/
theorem C2_apply_atomicity (st : LedgerState) (aid amt : Int) (ty : Char) (d : String) :
    ((process_transaction st aid amt ty d).1 = st ∧
      (process_transaction st aid amt ty d).2 = PTResult.errorJson)
    ∨ ((∃ b l, (process_transaction st aid amt ty d).2 = PTResult.ok b l) ∧
      (process_transaction st aid amt ty d).1.transactions =
        st.transactions ++
          [{ id := st.next_id, account_id := aid, amount := amt,
             type := ty, description := d, created_at := st.clock }] ∧
      (∃ a ∈ st.accounts, rowGuard aid amt ty a = true) ∧
      (process_transaction st aid amt ty d).1.accounts =
        st.accounts.map (fun b =>
          if rowGuard aid amt ty b then
            { b with balance := b.balance + txDelta ty amt } else b)) := by
  unfold process_transaction
  cases hf : st.accounts.filter (rowGuard aid amt ty) with
  | nil => exact Or.inl ⟨rfl, rfl⟩
  | cons a rest =>
    refine Or.inr ⟨⟨_, _, rfl⟩, rfl, ?_, rfl⟩
    have hmem : a ∈ st.accounts.filter (rowGuard aid amt ty) := by
      rw [hf]; exact List.mem_cons_self a rest
    rw [List.mem_filter] at hmem
    exact ⟨a, hmem.1, hmem.2⟩

/-- C9: the `unwrap()` on `payload.tipo.chars().next()` in `post_transacao`
never panics: every request reaching that expression has already passed the
validation forcing `tipo` to be exactly "c" or "d", hence non-empty. -/
theorem C9_unwrap_never_panics (st : LedgerState) (id : Int)
    (p : TransactionPayload) : (post_transacao st id p).panicked = false := by
  unfold post_transacao
  by_cases h1 : (id < 1 || id > 5) = true
  · simp [h1]
  · by_cases h2 : (p.descricao.utf8ByteSize == 0 || p.descricao.utf8ByteSize > 10) = true
    · simp [h1, h2]
    · by_cases h3 : (p.tipo != "c" && p.tipo != "d") = true
      · simp [h1, h2, h3]
      · have htipo : p.tipo = "c" ∨ p.tipo = "d" := by
          simp only [Bool.and_eq_true, bne_iff_ne, ne_eq, not_and_or, not_not] at h3
          exact h3
        by_cases h4 : (p.valor == 0) = true
        · simp [h1, h2, h3, h4]
        · have hhead : ∃ c, p.tipo.data.head? = some c := by
            rcases htipo with h | h <;> rw [h] <;> exact ⟨_, rfl⟩
          rcases hhead with ⟨c, hc⟩
          simp only [h1, h2, h3, h4, Bool.false_eq_true, if_false, hc]
          cases hpt : process_transaction st id (u32_as_i32 p.valor) c p.descricao with
          | mk st' r => cases r <;> simp

/-- C10: for every request whose path id lies outside the closed range
1..5, both handlers answer NotFound from the hardcoded range pre-check,
issuing no query to the store and leaving the state unchanged. -/
theorem C10_out_of_range_precheck (st : LedgerState) (id : Int)
    (p : TransactionPayload) (h : id < 1 ∨ 5 < id) :
    post_transacao st id p =
      { status := HStatus.notFound, state := st, queried := false, panicked := false } ∧
    get_extrato_handler st id =
      { status := HStatus.notFound, body := none, queried := false } := by
  have hcond : (id < 1 || id > 5) = true := by
    rcases h with h | h <;> simp [h]
  constructor
  · unfold post_transacao
    rw [hcond]
    rfl
  · unfold get_extrato_handler
    rw [hcond]
    rfl

/-- Witness for C10 at the concrete out-of-range id 6. -/
theorem C10_out_of_range_precheck_witness :
    ((6 : Int) < 1 ∨ 5 < (6 : Int)) ∧
    (post_transacao seedState 6 okPayload =
      { status := HStatus.notFound, state := seedState, queried := false, panicked := false } ∧
    get_extrato_handler seedState 6 =
      { status := HStatus.notFound, body := none, queried := false }) :=
  ⟨by decide, C10_out_of_range_precheck seedState 6 okPayload (by decide)⟩

end Rinha

namespace Rinha

theorem filter_map_id_preserving (l : List Account) (f : Account → Account)
    (hf : ∀ b, (f b).id = b.id) (aid : Int) :
    (l.map f).filter (fun b => b.id == aid) =
      (l.filter (fun b => b.id == aid)).map f := by
  induction l with
  | nil => rfl
  | cons b t ih =>
    by_cases h : (b.id == aid) = true <;>
      simp [List.filter_cons, h, hf, ih]

/-- C1: on an existing account, `process_transaction` accepts the mutation
iff the kind is credit or the new balance stays within the credit limit;
on acceptance the stored balance becomes `balance + delta` and the returned
balance equals that value.  The final conjunct is the spec scenario:
limit 100, balance 0; debit 50 succeeds at -50, debit 60 is rejected
leaving -50, credit 200 succeeds at 150. -/
theorem C1_apply_guard (st : LedgerState) (aid amt : Int) (ty : Char)
    (d : String) (a : Account)
    (ha : st.accounts.filter (fun b => b.id == aid) = [a]) :
    ((process_transaction st aid amt ty d).2.isOk = true ↔
      (ty = 'c' ∨ a.balance + txDelta ty amt ≥ -a.account_limit)) ∧
    ((ty = 'c' ∨ a.balance + txDelta ty amt ≥ -a.account_limit) →
      (process_transaction st aid amt ty d).2 =
        PTResult.ok (a.balance + txDelta ty amt) a.account_limit ∧
      (process_transaction st aid amt ty d).1.accounts.filter
          (fun b => b.id == aid) =
        [{ a with balance := a.balance + txDelta ty amt }]) ∧
    ((process_transaction demoState 1 50 'd' "x").2 = PTResult.ok (-50) 100 ∧
     (process_transaction (process_transaction demoState 1 50 'd' "x").1
        1 60 'd' "y").2 = PTResult.errorJson ∧
     (process_transaction (process_transaction demoState 1 50 'd' "x").1
        1 60 'd' "y").1.accounts =
          [{ id := 1, balance := -50, account_limit := 100 }] ∧
     (process_transaction
        (process_transaction (process_transaction demoState 1 50 'd' "x").1
          1 60 'd' "y").1 1 200 'c' "z").2 = PTResult.ok 150 100) := by
  have hcond : ((ty == 'c' || decide (a.balance - amt ≥ -a.account_limit)) = true) ↔
      (ty = 'c' ∨ a.balance + txDelta ty amt ≥ -a.account_limit) := by
    by_cases hc : ty = 'c'
    · simp [hc]
    · simp only [txDelta, Bool.or_eq_true, beq_iff_eq, hc, false_or, if_false,
        decide_eq_true_eq, ge_iff_le, sub_eq_add_neg]
  refine ⟨?_, ?_, by decide⟩
  · rw [process_transaction_of_unique st aid amt ty d a ha]
    by_cases h : (ty == 'c' || decide (a.balance - amt ≥ -a.account_limit)) = true
    · rw [if_pos h]
      exact iff_of_true rfl (hcond.mp h)
    · rw [if_neg h]
      exact iff_of_false (by simp [PTResult.isOk]) (fun hr => h (hcond.mpr hr))
  · intro hr
    have h := hcond.mpr hr
    rw [process_transaction_of_unique st aid amt ty d a ha, if_pos h]
    refine ⟨rfl, ?_⟩
    have hid : (a.id == aid) = true := by
      have hm : a ∈ st.accounts.filter (fun b => b.id == aid) := by
        rw [ha]; exact List.mem_singleton.mpr rfl
      exact (List.mem_filter.mp hm).2
    have hpres : ∀ b, ((fun b =>
        if rowGuard aid amt ty b then
          { b with balance := b.balance + txDelta ty amt } else b) b).id = b.id := by
      intro b
      by_cases hb : rowGuard aid amt ty b = true <;> simp [hb]
    rw [filter_map_id_preserving st.accounts _ hpres aid, ha]
    have hga : rowGuard aid amt ty a = true := by
      rw [rowGuard, hid, h]
      rfl
    simp [hga]

/-- Witness for C1 at the spec-scenario account (id 1, balance 0,
limit 100) with a debit of 50. -/
theorem C1_apply_guard_witness :
    (demoState.accounts.filter (fun b => b.id == (1 : Int)) =
      [{ id := 1, balance := 0, account_limit := 100 }]) ∧
    ((process_transaction demoState 1 50 'd' "x").2.isOk = true ↔
      ('d' = 'c' ∨ (0 : Int) + txDelta 'd' 50 ≥ -(100 : Int))) :=
  ⟨by decide,
   (C1_apply_guard demoState 1 50 'd' "x"
      { id := 1, balance := 0, account_limit := 100 } (by decide)).1⟩

/-- C8: input validation in `post_transacao` for an in-range id: a
10-byte description with valid tipo and non-zero valor reaches the store;
an empty or oversized description, an unrecognized tipo, or a zero valor
is rejected as 422 before any query, leaving the state unchanged. -/
theorem C8_validation (st : LedgerState) (id : Int) (p : TransactionPayload)
    (hlo : 1 ≤ id) (hhi : id ≤ 5) :
    ((p.descricao.utf8ByteSize = 10 ∧ (p.tipo = "c" ∨ p.tipo = "d") ∧
        p.valor ≠ 0) → (post_transacao st id p).queried = true) ∧
    ((p.descricao.utf8ByteSize = 0 ∨ 11 ≤ p.descricao.utf8ByteSize) →
      post_transacao st id p =
        { status := HStatus.unprocessable, state := st,
          queried := false, panicked := false }) ∧
    ((p.tipo ≠ "c" ∧ p.tipo ≠ "d") →
      post_transacao st id p =
        { status := HStatus.unprocessable, state := st,
          queried := false, panicked := false }) ∧
    (p.valor = 0 →
      post_transacao st id p =
        { status := HStatus.unprocessable, state := st,
          queried := false, panicked := false }) := by
  have hid : ¬((id < 1 || id > 5) = true) := by
    simp only [Bool.or_eq_true, decide_eq_true_eq, not_or, not_lt]
    omega
  refine ⟨?_, ?_, ?_, ?_⟩
  · rintro ⟨hd10, htipo, hv⟩
    unfold post_transacao
    rw [if_neg hid]
    have hdesc : ¬((p.descricao.utf8ByteSize == 0 ||
        p.descricao.utf8ByteSize > 10) = true) := by
      simp [hd10]
    rw [if_neg hdesc]
    have ht : ¬((p.tipo != "c" && p.tipo != "d") = true) := by
      rcases htipo with h | h <;> simp [h]
    rw [if_neg ht]
    have hvv : ¬((p.valor == 0) = true) := by simp [hv]
    rw [if_neg hvv]
    have hhead : ∃ c, p.tipo.data.head? = some c := by
      rcases htipo with h | h <;> rw [h] <;> exact ⟨_, rfl⟩
    rcases hhead with ⟨c, hc⟩
    rw [hc]
    cases hpt : process_transaction st id (u32_as_i32 p.valor) c p.descricao with
    | mk st' r => cases r <;> simp [hpt]
  · intro hdesc
    unfold post_transacao
    rw [if_neg hid]
    have hd : (p.descricao.utf8ByteSize == 0 ||
        p.descricao.utf8ByteSize > 10) = true := by
      rcases hdesc with h | h <;> simp [h] <;> omega
    rw [if_pos hd]
  · rintro ⟨hc, hd⟩
    unfold post_transacao
    rw [if_neg hid]
    by_cases hdesc : (p.descricao.utf8ByteSize == 0 ||
        p.descricao.utf8ByteSize > 10) = true
    · rw [if_pos hdesc]
    · rw [if_neg hdesc]
      have ht : (p.tipo != "c" && p.tipo != "d") = true := by
        simp [hc, hd]
      rw [if_pos ht]
  · intro hv
    unfold post_transacao
    rw [if_neg hid]
    by_cases hdesc : (p.descricao.utf8ByteSize == 0 ||
        p.descricao.utf8ByteSize > 10) = true
    · rw [if_pos hdesc]
    · rw [if_neg hdesc]
      by_cases ht : (p.tipo != "c" && p.tipo != "d") = true
      · rw [if_pos ht]
      · rw [if_neg ht]
        have hvv : (p.valor == 0) = true := by simp [hv]
        rw [if_pos hvv]

/-- Witness for C8 at id 1 with a 10-byte description, tipo "d" and
valor 1: the request reaches the store. -/
theorem C8_validation_witness :
    (post_transacao seedState 1
      { valor := 1, tipo := "d", descricao := "abcdefghij" }).queried = true :=
  (C8_validation seedState 1
      { valor := 1, tipo := "d", descricao := "abcdefghij" }
      (by decide) (by decide)).1 (by decide)

end Rinha

namespace Rinha

/-- C5 counterexample: on the seeded store, posting to id 6 (a
nonexistent account) yields NotFound with `queried = false`: the outcome
comes from the handler's range pre-check, not from the atomic unit's
outcome against the store. -/
theorem C5_counterexample :
    ¬ ((post_transacao seedState 6 okPayload).status = HStatus.notFound →
       (post_transacao seedState 6 okPayload).queried = true) := by
  decide

/-- C5 (amended): given the deployed store (accounts exactly 1..5), for
every account id that references no account, both handlers report NotFound
with no mutation, no transaction record and no store query: the outcome is
determined by the hardcoded id-range pre-check, not by the atomic unit. -/
theorem C5_amended_notfound (st : LedgerState) (aid : Int)
    (p : TransactionPayload) (hseed : SeededIds st)
    (habs : st.accounts.filter (fun b => b.id == aid) = []) :
    post_transacao st aid p =
      { status := HStatus.notFound, state := st,
        queried := false, panicked := false } ∧
    get_extrato_handler st aid =
      { status := HStatus.notFound, body := none, queried := false } := by
  have hrange : aid < 1 ∨ 5 < aid := by
    by_contra hcon
    push_neg at hcon
    obtain ⟨h1, h5⟩ := hcon
    have hmem : aid ∈ ([1, 2, 3, 4, 5] : List Int) := by
      have h15 : aid = 1 ∨ aid = 2 ∨ aid = 3 ∨ aid = 4 ∨ aid = 5 := by omega
      rcases h15 with h | h | h | h | h <;> simp [h]
    obtain ⟨a, hmem', hid⟩ := hseed.2 aid hmem
    have hin : a ∈ st.accounts.filter (fun b => b.id == aid) :=
      List.mem_filter.mpr ⟨hmem', by simp [hid]⟩
    rw [habs] at hin
    exact absurd hin (List.not_mem_nil a)
  have hcond : (aid < 1 || aid > 5) = true := by
    rcases hrange with h | h <;> simp [h]
  constructor
  · unfold post_transacao
    rw [hcond]
    rfl
  · unfold get_extrato_handler
    rw [hcond]
    rfl

/-- Witness for the amended C5 at the seeded store and id 7. -/
theorem C5_amended_notfound_witness :
    SeededIds seedState ∧
    (post_transacao seedState 7 okPayload =
      { status := HStatus.notFound, state := seedState,
        queried := false, panicked := false } ∧
     get_extrato_handler seedState 7 =
      { status := HStatus.notFound, body := none, queried := false }) :=
  ⟨by unfold SeededIds; decide,
   C5_amended_notfound seedState 7 okPayload (by unfold SeededIds; decide)
     (by decide)⟩

/-- C7: for an existing account with zero transactions the statement
succeeds and its recent-transactions field is the empty sequence (a `some`
with an explicit empty list, never an absent body); for an account id with
no account row, the GET handler reports NotFound. -/
theorem C7_empty_statement_and_notfound :
    (∀ (st : LedgerState) (aid : Int) (a : Account) (rest : List Account),
      st.accounts.filter (fun b => b.id == aid) = a :: rest →
      st.transactions.filter (fun t => t.account_id == aid) = [] →
      get_extrato st aid =
        some { saldo := { total := a.balance, limite := a.account_limit,
                          data_extrato := st.clock },
               ultimas_transacoes := [] }) ∧
    (∀ (st : LedgerState) (aid : Int),
      st.accounts.filter (fun b => b.id == aid) = [] →
      (get_extrato_handler st aid).status = HStatus.notFound) := by
  constructor
  · intro st aid a rest ha ht
    unfold get_extrato
    rw [ha, ht]
    rfl
  · intro st aid ha
    unfold get_extrato_handler
    by_cases h : (aid < 1 || aid > 5) = true
    · rw [if_pos h]
    · rw [if_neg h]
      have hnone : get_extrato st aid = none := by
        unfold get_extrato
        rw [ha]
      rw [hnone]

/-- Witness for C7: the demo account has no transactions and yields an
empty statement list; id 9 has no account and yields NotFound. -/
theorem C7_empty_statement_and_notfound_witness :
    (get_extrato demoState 1 =
      some { saldo := { total := 0, limite := 100, data_extrato := 0 },
             ultimas_transacoes := [] }) ∧
    (get_extrato_handler demoState 9).status = HStatus.notFound :=
  ⟨C7_empty_statement_and_notfound.1 demoState 1
      { id := 1, balance := 0, account_limit := 100 } [] (by decide) (by decide),
   C7_empty_statement_and_notfound.2 demoState 9 (by decide)⟩

end Rinha

namespace Rinha

theorem invariant_step (st : LedgerState) (aid amt : Int) (ty : Char)
    (d : String) (h : InvariantOK st) (hamt : 0 ≤ amt) :
    InvariantOK (process_transaction st aid amt ty d).1 := by
  unfold process_transaction
  cases hf : st.accounts.filter (rowGuard aid amt ty) with
  | nil => exact h
  | cons a rest =>
    intro b hb
    simp only [List.mem_map] at hb
    obtain ⟨b0, hb0, rfl⟩ := hb
    have hinv := h b0 hb0
    by_cases hg : rowGuard aid amt ty b0 = true
    · rw [if_pos hg]
      show -b0.account_limit ≤ b0.balance + txDelta ty amt
      by_cases hc : (ty == 'c') = true
      · have hd : txDelta ty amt = amt := by
          unfold txDelta
          rw [if_pos hc]
        rw [hd]
        linarith
      · have hg2 : b0.balance - amt ≥ -b0.account_limit := by
          rw [rowGuard] at hg
          simp only [Bool.and_eq_true, Bool.or_eq_true] at hg
          rcases hg.2 with h' | h'
          · exact absurd h' hc
          · exact of_decide_eq_true h'
        have hd : txDelta ty amt = -amt := by
          unfold txDelta
          rw [if_neg hc]
        rw [hd]
        linarith
    · rw [if_neg hg]
      exact hinv

/-- C3: the invariant `balance >= -credit_limit` holds in every state
reachable by a sequence of `apply` calls (positive amounts, per the
Processor contract) from a state satisfying it: credits only increase the
balance and debits are accepted only under the limit guard. -/
theorem C3_invariant_reachable (st : LedgerState) (reqs : List ApplyReq)
    (h0 : InvariantOK st) (hpos : ∀ r ∈ reqs, 0 < r.amount) :
    InvariantOK (applyRun st reqs).1 := by
  induction reqs generalizing st with
  | nil => exact h0
  | cons r rs ih =>
    simp only [applyRun]
    exact ih _
      (invariant_step st r.account_id r.amount r.kind r.description h0
        (le_of_lt (hpos r (List.mem_cons_self r rs))))
      (fun q hq => hpos q (List.mem_cons_of_mem r hq))

/-- Witness for C3: the demo state satisfies the invariant and still does
after a debit of 50 and a credit of 200. -/
theorem C3_invariant_reachable_witness :
    InvariantOK demoState ∧
    InvariantOK (applyRun demoState
      [{ account_id := 1, amount := 50, kind := 'd', description := "x" },
       { account_id := 1, amount := 200, kind := 'c', description := "z" }]).1 :=
  ⟨by unfold InvariantOK; decide,
   C3_invariant_reachable demoState _ (by unfold InvariantOK; decide) (by decide)⟩

end Rinha

namespace Rinha

theorem insertByIdDesc_of_lt (t : Transaction) (l : List Transaction)
    (h : ∀ u ∈ l, t.id < u.id) : insertByIdDesc t l = l ++ [t] := by
  induction l with
  | nil => rfl
  | cons u us ih =>
    have hu : t.id < u.id := h u (List.mem_cons_self u us)
    simp only [insertByIdDesc]
    rw [if_neg (by omega)]
    rw [ih (fun v hv => h v (List.mem_cons_of_mem u hv))]
    rfl

theorem sortByIdDesc_of_increasing (l : List Transaction)
    (h : l.Pairwise (fun a b => a.id < b.id)) :
    sortByIdDesc l = l.reverse := by
  induction l with
  | nil => rfl
  | cons t ts ih =>
    obtain ⟨hhead, htail⟩ := List.pairwise_cons.mp h
    simp only [sortByIdDesc]
    rw [ih htail]
    rw [insertByIdDesc_of_lt t ts.reverse
      (fun u hu => hhead u (List.mem_reverse.mp hu))]
    rw [List.reverse_cons]

theorem process_transaction_state_cases (st : LedgerState) (aid amt : Int)
    (ty : Char) (d : String) :
    (process_transaction st aid amt ty d).1 = st ∨
    (process_transaction st aid amt ty d).1 =
      { st with
        accounts := st.accounts.map (fun b =>
          if rowGuard aid amt ty b then
            { b with balance := b.balance + txDelta ty amt } else b),
        transactions := st.transactions ++ [newTx st aid amt ty d],
        next_id := st.next_id + 1 } := by
  unfold process_transaction
  cases hf : st.accounts.filter (rowGuard aid amt ty) with
  | nil => exact Or.inl rfl
  | cons a rest => exact Or.inr rfl

theorem idsSorted_step (st : LedgerState) (aid amt : Int) (ty : Char)
    (d : String) (h : IdsSorted st) :
    IdsSorted (process_transaction st aid amt ty d).1 := by
  rcases process_transaction_state_cases st aid amt ty d with hcase | hcase
  · rw [hcase]
    exact h
  · rw [hcase]
    constructor
    · apply List.pairwise_append.mpr
      refine ⟨h.1, List.pairwise_singleton _ _, ?_⟩
      intro t ht u hu
      have hu' : u = newTx st aid amt ty d := by simpa using hu
      rw [hu']
      exact h.2 t ht
    · intro t ht
      rcases List.mem_append.mp ht with h' | h'
      · exact Nat.lt_succ_of_lt (h.2 t h')
      · have ht' : t = newTx st aid amt ty d := by simpa using h'
        rw [ht']
        exact Nat.lt_succ_self _

theorem idsSorted_run (st : LedgerState) (reqs : List ApplyReq)
    (h : IdsSorted st) : IdsSorted (applyRun st reqs).1 := by
  induction reqs generalizing st with
  | nil => exact h
  | cons r rs ih =>
    simp only [applyRun]
    exact ih _ (idsSorted_step st r.account_id r.amount r.kind r.description h)

/-- C6: in any state whose transaction ids increase along insertion order
(which `process_transaction` preserves, second conjunct), the statement's
recent list is the last 10 inserted transactions for the account, newest
first, ordered by the serial id; the final conjunct is the spec scenario:
after posting T1..T12 in order, the statement returns exactly T12..T3 and
the balance reflects all 12 — while all timestamps collide at 0, showing
the order comes from the id, not the timestamp. -/
theorem C6_statement_recent :
    (∀ (st : LedgerState) (aid : Int) (e : Extrato),
      st.transactions.Pairwise (fun t u => t.id < u.id) →
      get_extrato st aid = some e →
      e.ultimas_transacoes =
        (((st.transactions.filter
            (fun t => t.account_id == aid)).reverse).take 10).map txView) ∧
    (∀ (st : LedgerState) (reqs : List ApplyReq),
      IdsSorted st → IdsSorted (applyRun st reqs).1) ∧
    (get_extrato (applyRun demoState reqs12).1 1 =
      some { saldo := { total := 78, limite := 100, data_extrato := 0 },
             ultimas_transacoes :=
               [{ valor := 12, tipo := 'c', descricao := "t12", realizada_em := 0 },
                { valor := 11, tipo := 'c', descricao := "t11", realizada_em := 0 },
                { valor := 10, tipo := 'c', descricao := "t10", realizada_em := 0 },
                { valor := 9, tipo := 'c', descricao := "t9", realizada_em := 0 },
                { valor := 8, tipo := 'c', descricao := "t8", realizada_em := 0 },
                { valor := 7, tipo := 'c', descricao := "t7", realizada_em := 0 },
                { valor := 6, tipo := 'c', descricao := "t6", realizada_em := 0 },
                { valor := 5, tipo := 'c', descricao := "t5", realizada_em := 0 },
                { valor := 4, tipo := 'c', descricao := "t4", realizada_em := 0 },
                { valor := 3, tipo := 'c', descricao := "t3", realizada_em := 0 }] }) := by
  refine ⟨?_, idsSorted_run, by decide⟩
  intro st aid e hp he
  have hsort : sortByIdDesc (st.transactions.filter
      (fun t => t.account_id == aid)) =
      (st.transactions.filter (fun t => t.account_id == aid)).reverse :=
    sortByIdDesc_of_increasing _ (hp.filter _)
  unfold get_extrato at he
  cases haf : st.accounts.filter (fun a => a.id == aid) with
  | nil =>
    rw [haf] at he
    exact absurd he (by simp)
  | cons a rest =>
    rw [haf, hsort] at he
    cases hrows : ((st.transactions.filter
        (fun t => t.account_id == aid)).reverse).take 10 with
    | nil =>
      rw [hrows] at he
      injection he with he'
      rw [← he']
      simp [hrows]
    | cons v vs =>
      rw [hrows] at he
      injection he with he'
      rw [← he']
      simp [hrows]

/-- Witness for C6 on the twelve-transaction scenario state. -/
theorem C6_statement_recent_witness :
    ∃ e, get_extrato (applyRun demoState reqs12).1 1 = some e ∧
      e.ultimas_transacoes =
        ((((applyRun demoState reqs12).1.transactions.filter
            (fun t => t.account_id == (1 : Int))).reverse).take 10).map txView := by
  refine ⟨_, (by decide :
    get_extrato (applyRun demoState reqs12).1 1 =
      some { saldo := { total := 78, limite := 100, data_extrato := 0 },
             ultimas_transacoes :=
               [{ valor := 12, tipo := 'c', descricao := "t12", realizada_em := 0 },
                { valor := 11, tipo := 'c', descricao := "t11", realizada_em := 0 },
                { valor := 10, tipo := 'c', descricao := "t10", realizada_em := 0 },
                { valor := 9, tipo := 'c', descricao := "t9", realizada_em := 0 },
                { valor := 8, tipo := 'c', descricao := "t8", realizada_em := 0 },
                { valor := 7, tipo := 'c', descricao := "t7", realizada_em := 0 },
                { valor := 6, tipo := 'c', descricao := "t6", realizada_em := 0 },
                { valor := 5, tipo := 'c', descricao := "t5", realizada_em := 0 },
                { valor := 4, tipo := 'c', descricao := "t4", realizada_em := 0 },
                { valor := 3, tipo := 'c', descricao := "t3", realizada_em := 0 }] }), ?_⟩
  exact C6_statement_recent.1 (applyRun demoState reqs12).1 1 _ (by decide)
    (by decide)

end Rinha

namespace Rinha

theorem run_debits (L m : Int) (k : Nat) (hm : 0 < m)
    (hkL : (k : Int) * m ≤ L) (hbr : L < ((k : Int) + 1) * m) :
    ∀ (n j : Nat) (st : LedgerState), j ≤ k →
      st.accounts = [{ id := 1, balance := -((j : Int) * m), account_limit := L }] →
      ((applyRun st (List.replicate n (debitReq m "x"))).1.accounts =
        [{ id := 1, balance := -(((min n (k - j) + j : Nat) : Int) * m),
           account_limit := L }]) ∧
      ((applyRun st (List.replicate n (debitReq m "x"))).2.countP
        (fun r => r.isOk) = min n (k - j)) ∧
      ((applyRun st (List.replicate n (debitReq m "x"))).2.countP
        (fun r => !r.isOk) = n - min n (k - j)) := by
  intro n
  induction n with
  | zero =>
    intro j st hj hacc
    have h0 : min 0 (k - j) = 0 := by omega
    refine ⟨?_, ?_, ?_⟩ <;>
      simp [applyRun, List.replicate, h0, hacc]
  | succ n ih =>
    intro j st hj hacc
    rw [List.replicate_succ]
    by_cases hjk : j < k
    · have hexp : ((j : Int) + 1) * m = (j : Int) * m + m := by ring
      have hineq : -((j : Int) * m) - m ≥ -L := by
        have hj1 : ((j : Int) + 1) * m ≤ (k : Int) * m := by
          apply mul_le_mul_of_nonneg_right _ hm.le
          exact_mod_cast Nat.succ_le_of_lt hjk
        linarith
      have hg : rowGuard 1 m 'd'
          { id := 1, balance := -((j : Int) * m), account_limit := L } = true := by
        show ((1 : Int) == 1 && ('d' == 'c' || decide (-((j : Int) * m) - m ≥ -L))) = true
        rw [decide_eq_true hineq]
        rfl
      have hfil : st.accounts.filter (rowGuard 1 m 'd') =
          [{ id := 1, balance := -((j : Int) * m), account_limit := L }] := by
        rw [hacc]
        simp [List.filter_cons, hg]
      have hres : (process_transaction st 1 m 'd' "x").2 =
          PTResult.ok (-((j : Int) * m) + txDelta 'd' m) L := by
        unfold process_transaction
        rw [hfil]
      have hb : -((j : Int) * m) + txDelta 'd' m = -(((j + 1 : Nat) : Int) * m) := by
        have hd : txDelta 'd' m = -m := rfl
        rw [hd]
        push_cast
        ring
      have hacc1 : (process_transaction st 1 m 'd' "x").1.accounts =
          [{ id := 1, balance := -(((j + 1 : Nat) : Int) * m), account_limit := L }] := by
        unfold process_transaction
        rw [hfil]
        show st.accounts.map _ = _
        rw [hacc]
        simp only [List.map_cons, List.map_nil]
        rw [if_pos hg, hb]
      obtain ⟨ha', hok', herr'⟩ := ih (j + 1) (process_transaction st 1 m 'd' "x").1
        (by omega) hacc1
      refine ⟨?_, ?_, ?_⟩
      · show (applyRun (process_transaction st 1 m 'd' "x").1
            (List.replicate n (debitReq m "x"))).1.accounts = _
        rw [ha', show min n (k - (j + 1)) + (j + 1) = min (n + 1) (k - j) + j from
          by omega]
      · show ((process_transaction st 1 m 'd' "x").2 ::
            (applyRun (process_transaction st 1 m 'd' "x").1
              (List.replicate n (debitReq m "x"))).2).countP (fun r => r.isOk) =
            min (n + 1) (k - j)
        rw [List.countP_cons, hok', hres]
        simp [PTResult.isOk]
        omega
      · show ((process_transaction st 1 m 'd' "x").2 ::
            (applyRun (process_transaction st 1 m 'd' "x").1
              (List.replicate n (debitReq m "x"))).2).countP (fun r => !r.isOk) =
            (n + 1) - min (n + 1) (k - j)
        rw [List.countP_cons, herr', hres]
        simp [PTResult.isOk]
        omega
    · have hjeq : j = k := by omega
      have hjc : (j : Int) = (k : Int) := by exact_mod_cast hjeq
      have hexp : ((k : Int) + 1) * m = (k : Int) * m + m := by ring
      have hineq : ¬(-((j : Int) * m) - m ≥ -L) := by
        intro hcon
        rw [hjc] at hcon
        linarith
      have hg : rowGuard 1 m 'd'
          { id := 1, balance := -((j : Int) * m), account_limit := L } = false := by
        show ((1 : Int) == 1 && ('d' == 'c' || decide (-((j : Int) * m) - m ≥ -L))) = false
        rw [decide_eq_false hineq]
        rfl
      have hfil : st.accounts.filter (rowGuard 1 m 'd') = [] := by
        rw [hacc]
        simp [List.filter_cons, hg]
      have hstep : process_transaction st 1 m 'd' "x" = (st, PTResult.errorJson) := by
        unfold process_transaction
        rw [hfil]
      have hst1 : (process_transaction st 1 m 'd' "x").1 = st := by
        rw [hstep]
      have hres : (process_transaction st 1 m 'd' "x").2 = PTResult.errorJson := by
        rw [hstep]
      obtain ⟨ha', hok', herr'⟩ := ih j st hj hacc
      refine ⟨?_, ?_, ?_⟩
      · show (applyRun (process_transaction st 1 m 'd' "x").1
            (List.replicate n (debitReq m "x"))).1.accounts = _
        rw [hst1, show min (n + 1) (k - j) + j = min n (k - j) + j from by omega]
        exact ha'
      · show ((process_transaction st 1 m 'd' "x").2 ::
            (applyRun (process_transaction st 1 m 'd' "x").1
              (List.replicate n (debitReq m "x"))).2).countP (fun r => r.isOk) =
            min (n + 1) (k - j)
        rw [hst1, List.countP_cons, hok', hres]
        simp [PTResult.isOk]
        omega
      · show ((process_transaction st 1 m 'd' "x").2 ::
            (applyRun (process_transaction st 1 m 'd' "x").1
              (List.replicate n (debitReq m "x"))).2).countP (fun r => !r.isOk) =
            (n + 1) - min (n + 1) (k - j)
        rw [hst1, List.countP_cons, herr', hres]
        simp [PTResult.isOk]
        omega

end Rinha


namespace Rinha

theorem process_transaction_eq_error (st : LedgerState) (aid amt : Int)
    (ty : Char) (d : String)
    (hfil : st.accounts.filter (rowGuard aid amt ty) = []) :
    process_transaction st aid amt ty d = (st, PTResult.errorJson) := by
  unfold process_transaction
  rw [hfil]

theorem process_transaction_eq_insert (st : LedgerState) (aid amt : Int)
    (ty : Char) (d : String) (a : Account) (rest : List Account)
    (hfil : st.accounts.filter (rowGuard aid amt ty) = a :: rest) :
    process_transaction st aid amt ty d =
      ({ st with
          accounts := st.accounts.map (fun b =>
            if rowGuard aid amt ty b then
              { b with balance := b.balance + txDelta ty amt } else b),
          transactions := st.transactions ++ [newTx st aid amt ty d],
          next_id := st.next_id + 1 },
       PTResult.ok (a.balance + txDelta ty amt) a.account_limit) := by
  unfold process_transaction
  rw [hfil]

/-- C4: per-account linearization consequence, modelled by quantifying
over serial executions (the store's row lock makes any concurrent run
equivalent to one of them): from balance 0 and limit L, N ≥ k debits of
amount m with k*m ≤ L < (k+1)*m yield exactly k successes and N-k
LimitExceeded rejections, final balance -k*m ≥ -L; and two debits that
individually pass but jointly breach the limit are never both accepted. -/
theorem C4_linearized_contention (L m : Int) (k N : Nat) (hm : 0 < m)
    (hkL : (k : Int) * m ≤ L) (hbr : L < ((k : Int) + 1) * m) (hN : k ≤ N) :
    ((applyRun (contentionState L) (List.replicate N (debitReq m "x"))).2.countP
        (fun r => r.isOk) = k) ∧
    ((applyRun (contentionState L) (List.replicate N (debitReq m "x"))).2.countP
        (fun r => !r.isOk) = N - k) ∧
    ((applyRun (contentionState L) (List.replicate N (debitReq m "x"))).1.accounts =
        [{ id := 1, balance := -((k : Int) * m), account_limit := L }]) ∧
    (-L ≤ -((k : Int) * m)) ∧
    (∀ m1 m2 : Int, 0 < m1 → 0 < m2 → m1 ≤ L → m2 ≤ L → L < m1 + m2 →
      (applyRun (contentionState L) [debitReq m1 "a", debitReq m2 "b"]).2.countP
          (fun r => r.isOk) = 1) := by
  have hacc0 : (contentionState L).accounts =
      [{ id := 1, balance := -(((0 : Nat) : Int) * m), account_limit := L }] := by
    simp [contentionState]
  obtain ⟨ha, hok, herr⟩ := run_debits L m k hm hkL hbr N 0 (contentionState L)
    (Nat.zero_le k) hacc0
  refine ⟨?_, ?_, ?_, by linarith, ?_⟩
  · rw [hok]
    omega
  · rw [herr]
    omega
  · rw [ha, show min N (k - 0) + 0 = k from by omega]
  · intro m1 m2 hm1 hm2 h1L h2L hbreach
    have hg1 : rowGuard 1 m1 'd'
        { id := 1, balance := 0, account_limit := L } = true := by
      show ((1 : Int) == 1 && ('d' == 'c' || decide ((0 : Int) - m1 ≥ -L))) = true
      rw [decide_eq_true (show (0 : Int) - m1 ≥ -L by linarith)]
      rfl
    have hfil1 : (contentionState L).accounts.filter (rowGuard 1 m1 'd') =
        [{ id := 1, balance := 0, account_limit := L }] := by
      simp [contentionState, List.filter_cons, hg1]
    have hstep1 := process_transaction_eq_insert (contentionState L) 1 m1 'd' "a"
      { id := 1, balance := 0, account_limit := L } [] hfil1
    have hres1 : (process_transaction (contentionState L) 1 m1 'd' "a").2 =
        PTResult.ok ((0 : Int) + txDelta 'd' m1) L := by
      rw [hstep1]
    have hacc1 : (process_transaction (contentionState L) 1 m1 'd' "a").1.accounts =
        [{ id := 1, balance := txDelta 'd' m1, account_limit := L }] := by
      rw [hstep1]
      show List.map _ ([{ id := 1, balance := 0, account_limit := L }] : List Account) = _
      simp only [List.map_cons, List.map_nil]
      rw [if_pos hg1]
      simp
    have hg2 : rowGuard 1 m2 'd'
        { id := 1, balance := txDelta 'd' m1, account_limit := L } = false := by
      show ((1 : Int) == 1 &&
          ('d' == 'c' || decide (txDelta 'd' m1 - m2 ≥ -L))) = false
      have hne : ¬(txDelta 'd' m1 - m2 ≥ -L) := by
        have hd : txDelta 'd' m1 = -m1 := rfl
        rw [hd]
        intro hcon
        linarith
      rw [decide_eq_false hne]
      rfl
    have hfil2 : (process_transaction (contentionState L) 1 m1 'd' "a").1.accounts.filter
        (rowGuard 1 m2 'd') = [] := by
      rw [hacc1]
      simp [List.filter_cons, hg2]
    have hres2 : (process_transaction
        (process_transaction (contentionState L) 1 m1 'd' "a").1 1 m2 'd' "b").2 =
        PTResult.errorJson := by
      rw [process_transaction_eq_error _ 1 m2 'd' "b" hfil2]
    show ((process_transaction (contentionState L) 1 m1 'd' "a").2 ::
        (process_transaction
          (process_transaction (contentionState L) 1 m1 'd' "a").1 1 m2 'd' "b").2 ::
        ([] : List PTResult)).countP (fun r => r.isOk) = 1
    rw [hres1, hres2]
    simp [List.countP_cons, PTResult.isOk]

/-- Witness for C4 at L = 100, m = 50, k = 2, N = 3: exactly two of the
three debits succeed, one is rejected, and the final balance -100 stays
within the limit. -/
theorem C4_linearized_contention_witness :
    ((applyRun (contentionState 100) (List.replicate 3 (debitReq 50 "x"))).2.countP
        (fun r => r.isOk) = 2) ∧
    ((applyRun (contentionState 100) (List.replicate 3 (debitReq 50 "x"))).2.countP
        (fun r => !r.isOk) = 3 - 2) ∧
    (-(100 : Int) ≤ -(((2 : Nat) : Int) * 50)) :=
  ⟨(C4_linearized_contention 100 50 2 3 (by norm_num) (by norm_num) (by norm_num)
      (by norm_num)).1,
   (C4_linearized_contention 100 50 2 3 (by norm_num) (by norm_num) (by norm_num)
      (by norm_num)).2.1,
   (C4_linearized_contention 100 50 2 3 (by norm_num) (by norm_num) (by norm_num)
      (by norm_num)).2.2.2.1⟩

end Rinha
